import Mathlib

/-!
Verification of the anomaly-detection streaming pipeline

Shallow embedding of the core pipeline logic of the
`anomaly-detection-system` repository: the ensemble detection dispatch of
`src/anomaly_detector.py` and the stream-processing loop of
`src/stream_processor.py`.  Python floats are modelled as rationals (`ℚ`),
wall-clock instants as rationals, raised exceptions as `Option`/explicit
error values, and externally visible side effects (Kafka publishes, Redis
writes, log lines) as explicit action lists.
-/

namespace AnomalySystem

/-- The `AnomalyResult` dataclass of `src/anomaly_detector.py`.
`timestamp` is the wall-clock instant `datetime.now()` recorded at
construction time. -/
structure AnomalyResult where
  is_anomaly : Bool
  confidence : ℚ
  score : ℚ
  timestamp : ℚ
  features : List (String × ℚ)
  model_used : String
  threshold : ℚ
deriving DecidableEq

/-- Result of `_ensemble_detection`: the returned `AnomalyResult` (`none`
models the `ValueError("No models could process the data point")` raised
when every backend failed), together with the names of the backends whose
scoring raised and was logged by `logger.warning`. -/
structure EnsembleOutput where
  result : Option AnomalyResult
  warnings : List String
deriving DecidableEq

/-- Model of `_ensemble_detection` in `src/anomaly_detector.py` (lines 276-310).
Each registered backend is modelled by its name paired with the outcome of
`_single_model_detection` for the given data point: `some r` when the call
returns `r`, `none` when it raises.  The Python loop appends each
successful result to `results` and logs a warning for each failure; if
`results` is empty a `ValueError` is raised, otherwise the majority vote
`anomaly_votes > len(results) / 2` (true division) and the `np.mean`
aggregations produce the ensemble result, stamped with `datetime.now()`
(the `now` argument here). -/
def ensembleDetection (backends : List (String × Option AnomalyResult))
    (data_point : List (String × ℚ)) (now : ℚ) : EnsembleOutput :=
  let results := backends.filterMap (·.2)
  let warnings := (backends.filter (fun p => p.2.isNone)).map (·.1)
  if results.isEmpty then
    { result := none, warnings := warnings }
  else
    let anomaly_votes := results.countP (·.is_anomaly)
    { result := some
        { is_anomaly := decide ((anomaly_votes : ℚ) > (results.length : ℚ) / 2)
          confidence := (results.map (·.confidence)).sum / (results.length : ℚ)
          score := (results.map (·.score)).sum / (results.length : ℚ)
          timestamp := now
          features := data_point
          model_used := "ensemble"
          threshold := (results.map (·.threshold)).sum / (results.length : ℚ) }
      warnings := warnings }

/-- The clamp `confidence=min(confidence, 1.0)` applied by
`_single_model_detection` (line 268 of `src/anomaly_detector.py`) to the
raw per-backend confidence before it is returned. -/
def singleModelConfidence (raw : ℚ) : ℚ := min raw 1

/-- The `StreamConfig` dataclass of `src/stream_processor.py`. -/
structure StreamConfig where
  kafka_bootstrap_servers : String
  input_topic : String
  output_topic : String
  alert_topic : String
  consumer_group_id : String
  batch_size : ℕ := 100
  batch_timeout : ℚ := 5
  max_retries : ℕ := 3
  retry_delay : ℚ := 1
deriving DecidableEq

/-- The `StreamMessage` dataclass of `src/stream_processor.py`. -/
structure StreamMessage where
  id : String
  timestamp : ℚ
  data : List (String × ℚ)
  source : String
  metadata : List (String × String) := []
deriving DecidableEq

/-! Ingestion: `_consume_messages` (lines 144-173)

For each parsed message the consumer loop executes
`if not self.message_queue.full(): self.message_queue.put(...)
else: logger.warning("Message queue is full, dropping message")`.
The queue is the only state touched; the branch emits exactly one
observable action.  The action alphabet also contains a
dropped-message-counter increment so that its absence from the code's
traces is expressible. -/

inductive ConsumeAction
  | enqueued (m : StreamMessage)
  | logQueueFullWarning
  | incrDroppedCounter
deriving DecidableEq

/-- Hand-off of one parsed message to the bounded queue, from
`_consume_messages` lines 159-163.  `cap` is the queue's `maxsize`
(hard-coded to 1000 at construction in the source); the queue itself is the
list of messages currently buffered.  Returns the new queue and the
actions performed. -/
def consumeOne (cap : ℕ) (q : List StreamMessage) (m : StreamMessage) :
    List StreamMessage × List ConsumeAction :=
  if q.length < cap then (q ++ [m], [ConsumeAction.enqueued m])
  else (q, [ConsumeAction.logQueueFullWarning])

/-- Folding `consumeOne` over a sequence of parsed arrivals with no
consumer running (nothing is popped between arrivals). -/
def consumeRun (cap : ℕ) (ms : List StreamMessage) :
    List StreamMessage × List ConsumeAction :=
  ms.foldl (fun acc m =>
    let (q, as) := consumeOne cap acc.1 m
    (q, acc.2 ++ as)) ([], [])

/-! Batch aggregation: `_process_messages` (lines 188-225)

The worker loop keeps a `batch` list and a `last_batch_time` instant.
`last_batch_time` is initialised to `time.time()` when the loop starts and
reset to `time.time()` after every flush.  Each iteration either receives
a message (append, then flush if `len(batch) >= batch_size` or
`time.time() - last_batch_time >= batch_timeout`) or times out on the
queue poll (flush if the batch is non-empty and
`time.time() - last_batch_time >= batch_timeout`). -/

structure LoopState where
  batch : List StreamMessage
  last_batch_time : ℚ
deriving DecidableEq

/-- One iteration of the worker loop: a message arrival at instant `t`, or
a queue-poll timeout observed at instant `t`. -/
inductive LoopEvent
  | arrival (m : StreamMessage) (t : ℚ)
  | queueTimeout (t : ℚ)
deriving DecidableEq

/-- One iteration of `_process_messages`: returns the successor state and
`some B` when the batch `B` is handed to `_process_batch` (a flush),
`none` otherwise. -/
def processStep (cfg : StreamConfig) (s : LoopState) (e : LoopEvent) :
    LoopState × Option (List StreamMessage) :=
  match e with
  | LoopEvent.arrival m t =>
      let b := s.batch ++ [m]
      if b.length ≥ cfg.batch_size ∨ t - s.last_batch_time ≥ cfg.batch_timeout then
        (⟨[], t⟩, some b)
      else
        (⟨b, s.last_batch_time⟩, none)
  | LoopEvent.queueTimeout t =>
      if ¬ s.batch.isEmpty ∧ t - s.last_batch_time ≥ cfg.batch_timeout then
        (⟨[], t⟩, some s.batch)
      else
        (s, none)

/-! Publishing: `_publish_message` (lines 300-321)

The body is a single `producer.send` followed by `future.get(timeout=10)`,
wrapped in one `try/except` whose handler only calls `logger.error`.  The
broker's response to the n-th send attempt is modelled by a function
`broker : ℕ → SendOutcome`. -/

inductive SendOutcome
  | ok
  | transientFailure
deriving DecidableEq

/-- Observable outcome of one `_publish_message` call: how many send
attempts were made against the broker, whether the message was delivered,
and whether `logger.error("Failed to publish message", ...)` ran. -/
structure PublishResult where
  attempts : ℕ
  delivered : Bool
  loggedError : Bool
deriving DecidableEq

/-- Model of `_publish_message` in `src/stream_processor.py`: exactly one
`producer.send` + `future.get`; any failure is caught, logged and the
message dropped.  The function itself never raises and consults neither
`max_retries` nor `retry_delay`. -/
def publishMessage (broker : ℕ → SendOutcome) : PublishResult :=
  match broker 0 with
  | SendOutcome.ok => ⟨1, true, false⟩
  | SendOutcome.transientFailure => ⟨1, false, true⟩

/-- Modelled from the spec: §4.5 Result Publisher — "retrying up to
`max_retries` times with a fixed `retry_delay` between attempts on
transient send failure; exhausting retries logs an error and drops that
single message".  This retry loop is absent from `src/stream_processor.py`
and is stated here only to be compared with `publishMessage`.  `i` is the
index of the attempt about to be made and `r` the number of retries still
permitted after it. -/
def specPublishFrom (broker : ℕ → SendOutcome) : ℕ → ℕ → PublishResult
  | i, 0 =>
      match broker i with
      | SendOutcome.ok => ⟨i + 1, true, false⟩
      | SendOutcome.transientFailure => ⟨i + 1, false, true⟩
  | i, r + 1 =>
      match broker i with
      | SendOutcome.ok => ⟨i + 1, true, false⟩
      | SendOutcome.transientFailure => specPublishFrom broker (i + 1) r

/-- Modelled from the spec: the §4.5 publish contract — an initial attempt
followed by up to `max_retries` retries. -/
def specPublish (max_retries : ℕ) (broker : ℕ → SendOutcome) : PublishResult :=
  specPublishFrom broker 0 max_retries

/-! Result handling: `_handle_anomaly_result` (lines 258-298) -/

/-- The output record built by `_handle_anomaly_result` and sent to the
results topic. -/
structure OutputMessage where
  id : String
  timestamp : ℚ
  source : String
  is_anomaly : Bool
  confidence : ℚ
  score : ℚ
  model_used : String
  features : List (String × ℚ)
  metadata : List (String × String)
deriving DecidableEq

/-- The alert record built by `_handle_anomaly_result` for anomalous
results, sent to the alert topic and stored in Redis.  The free-text
`message` field (a formatted confidence string) is not modelled. -/
structure AlertMessage where
  id : String
  timestamp : ℚ
  source : String
  severity : String
  confidence : ℚ
  score : ℚ
  model_used : String
  features : List (String × ℚ)
  metadata : List (String × String)
deriving DecidableEq

/-- Observable actions of the worker while handling results: Kafka
publishes (`_publish_message` calls), the Redis alert write
(`_store_alert`), the metrics update (`_update_metrics`), and the batch
level `logger.error` of `_process_batch`'s exception handler. -/
inductive PubAction
  | publishOutput (topic : String) (m : OutputMessage)
  | publishAlert (topic : String) (a : AlertMessage)
  | storeAlert (a : AlertMessage)
  | metricsUpdate (r : AnomalyResult)
  | logBatchError
deriving DecidableEq

/-- Model of `_handle_anomaly_result` in `src/stream_processor.py`: publish the
output record unconditionally; when `result.is_anomaly`, additionally
publish an alert with severity `'high' if result.confidence > 0.8 else
'medium'` and store it in Redis; finally update the metrics. -/
def handleAnomalyResult (cfg : StreamConfig) (msg : StreamMessage)
    (result : AnomalyResult) : List PubAction :=
  let output : OutputMessage :=
    ⟨msg.id, result.timestamp, msg.source, result.is_anomaly, result.confidence,
      result.score, result.model_used, result.features, msg.metadata⟩
  let alertPart :=
    if result.is_anomaly then
      let alert : AlertMessage :=
        ⟨msg.id, result.timestamp, msg.source,
          (if result.confidence > 8/10 then "high" else "medium"),
          result.confidence, result.score, result.model_used, result.features,
          msg.metadata⟩
      [PubAction.publishAlert cfg.alert_topic alert, PubAction.storeAlert alert]
    else []
  PubAction.publishOutput cfg.output_topic output ::
    (alertPart ++ [PubAction.metricsUpdate result])

/-! Batch evaluation: `batch_detect` (anomaly_detector.py lines 312-332)
and `_process_batch` (stream_processor.py lines 227-256)

`batch_detect` iterates the rows of the batch and calls `detect_anomaly`
on each with no per-row exception handling, so the first raising row
aborts the whole call.  `_process_batch` wraps the `batch_detect` call and
the result loop in one `try/except` whose handler logs a batch-level
error.  `detect` maps a message to `some r` when `detect_anomaly` on its
data returns `r` and to `none` when it raises. -/

def batch_detect (detect : StreamMessage → Option AnomalyResult) :
    List StreamMessage → Option (List AnomalyResult)
  | [] => some []
  | m :: ms =>
      match detect m with
      | none => none
      | some r =>
          match batch_detect detect ms with
          | none => none
          | some rs => some (r :: rs)

/-- Model of `_process_batch` in `src/stream_processor.py`: empty batches return
immediately; otherwise evaluate the whole batch with `batch_detect` and
handle each (message, result) pair, or log a single batch-level error if
the evaluation raised. -/
def processBatch (cfg : StreamConfig) (detect : StreamMessage → Option AnomalyResult)
    (messages : List StreamMessage) : List PubAction :=
  if messages.isEmpty then []
  else
    match batch_detect detect messages with
    | none => [PubAction.logBatchError]
    | some results =>
        (messages.zip results).flatMap fun p => handleAnomalyResult cfg p.1 p.2

/-! Metrics: `_update_metrics` (lines 341-360) and `get_metrics`
(lines 362-385) -/

/-- Python's `int()` on a rational value: truncation toward zero. -/
def pyInt (q : ℚ) : ℤ := if 0 ≤ q then ⌊q⌋ else ⌈q⌉

/-- The Redis-backed metrics state: `metrics:total_processed`,
`metrics:anomalies_detected`, the hash `metrics:confidence_histogram`
(bucket → count) and the hash `metrics:model_usage` (name → count). -/
structure Metrics where
  total_processed : ℕ
  anomalies_detected : ℕ
  confidence_histogram : ℤ → ℕ
  model_usage : String → ℕ

/-- Metrics state before anything has been recorded. -/
def initMetrics : Metrics := ⟨0, 0, fun _ => 0, fun _ => 0⟩

/-- Model of `_update_metrics` in `src/stream_processor.py`: increment
`total_processed`; increment `anomalies_detected` when the result is
anomalous; increment histogram bucket `int(result.confidence * 10)` (no
clamping of the bucket index); increment the model-usage counter for
`result.model_used`. -/
def update_metrics (m : Metrics) (result : AnomalyResult) : Metrics where
  total_processed := m.total_processed + 1
  anomalies_detected := m.anomalies_detected + (if result.is_anomaly then 1 else 0)
  confidence_histogram := fun b =>
    if b = pyInt (result.confidence * 10) then m.confidence_histogram b + 1
    else m.confidence_histogram b
  model_usage := fun n =>
    if n = result.model_used then m.model_usage n + 1 else m.model_usage n

/-- The `anomaly_rate` field computed by `get_metrics`:
`anomalies_detected / total_processed` when `total_processed > 0`, else
`0.0`. -/
def anomaly_rate (m : Metrics) : ℚ :=
  if m.total_processed > 0 then
    (m.anomalies_detected : ℚ) / (m.total_processed : ℚ)
  else 0

/-! Sample data used to instantiate hypotheses at concrete inputs -/

/-- A concrete backend verdict. -/
def mkVerdict (anom : Bool) (conf : ℚ) : AnomalyResult :=
  ⟨anom, conf, 0, 0, [], "isolation_forest", 1⟩

/-- Four successful backends, exactly half of them voting anomalous. -/
def sampleBackends : List (String × Option AnomalyResult) :=
  [("isolation_forest", some (mkVerdict true (1/2))),
   ("one_class_svm", some (mkVerdict true (1/2))),
   ("autoencoder", some (mkVerdict false (1/2))),
   ("statistical", some (mkVerdict false (1/2)))]

/-- A concrete parsed stream message. -/
def mkMsg (i : String) : StreamMessage := ⟨i, 0, [], "src", []⟩

/-- A concrete pipeline configuration with the source's defaults. -/
def sampleConfig : StreamConfig :=
  ⟨"localhost:9092", "in", "out", "alerts", "grp", 100, 5, 3, 1⟩

/-! Facts about `_ensemble_detection` -/

/-- The warnings emitted by `_ensemble_detection` are exactly the names of
the backends whose scoring raised, in registration order. -/
theorem ensembleDetection_warnings_eq (backends : List (String × Option AnomalyResult))
    (d : List (String × ℚ)) (now : ℚ) :
    (ensembleDetection backends d now).warnings =
      (backends.filter (fun p => p.2.isNone)).map (·.1) := by
  unfold ensembleDetection
  dsimp only
  split <;> rfl

/-- When at least one backend succeeded, `_ensemble_detection` returns the
majority-vote/mean aggregation over exactly the successful verdicts. -/
theorem ensembleDetection_result_some (backends : List (String × Option AnomalyResult))
    (d : List (String × ℚ)) (now : ℚ)
    (hne : (backends.filterMap (·.2)).isEmpty = false) :
    (ensembleDetection backends d now).result = some
      { is_anomaly := decide ((((backends.filterMap (·.2)).countP (·.is_anomaly) : ℚ)) >
          ((backends.filterMap (·.2)).length : ℚ) / 2)
        confidence := ((backends.filterMap (·.2)).map (·.confidence)).sum /
          ((backends.filterMap (·.2)).length : ℚ)
        score := ((backends.filterMap (·.2)).map (·.score)).sum /
          ((backends.filterMap (·.2)).length : ℚ)
        timestamp := now
        features := d
        model_used := "ensemble"
        threshold := ((backends.filterMap (·.2)).map (·.threshold)).sum /
          ((backends.filterMap (·.2)).length : ℚ) } := by
  unfold ensembleDetection
  dsimp only
  rw [if_neg (by simp [hne])]

/-- The call to `_ensemble_detection` raises (returns no result) precisely when every
backend's scoring raised. -/
theorem ensembleDetection_result_none_iff (backends : List (String × Option AnomalyResult))
    (d : List (String × ℚ)) (now : ℚ) :
    (ensembleDetection backends d now).result = none ↔
      ∀ p ∈ backends, p.2 = none := by
  unfold ensembleDetection
  dsimp only
  rcases hE : (backends.filterMap (·.2)).isEmpty with _ | _
  · rw [if_neg (by simp [hE])]
    refine iff_of_false (by simp) ?_
    intro hall
    rw [List.isEmpty_eq_false_iff_exists_mem] at hE
    obtain ⟨r, hr⟩ := hE
    obtain ⟨p, hp, hpr⟩ := List.mem_filterMap.mp hr
    exact absurd (hall p hp) (by simp [hpr])
  · rw [if_pos (by simp [hE])]
    simp only [true_iff]
    intro p hp
    rw [List.isEmpty_iff] at hE
    rcases hp2 : p.2 with _ | r
    · rfl
    · exact absurd (hE ▸ List.mem_filterMap.mpr ⟨p, hp, hp2⟩) (List.not_mem_nil r)

/-- C1: the ensemble verdict is the strict-majority vote
`anomaly_votes > len(results) / 2` over the successful verdicts, and an
exact even-count tie yields `is_anomaly = false`. -/
theorem ensemble_strict_majority_vote (backends : List (String × Option AnomalyResult))
    (d : List (String × ℚ)) (now : ℚ)
    (h : backends.filterMap (·.2) ≠ []) :
    ∃ r, (ensembleDetection backends d now).result = some r ∧
      (r.is_anomaly = true ↔
        (((backends.filterMap (·.2)).countP (·.is_anomaly) : ℚ)) >
          ((backends.filterMap (·.2)).length : ℚ) / 2) ∧
      (2 * (backends.filterMap (·.2)).countP (·.is_anomaly) =
          (backends.filterMap (·.2)).length → r.is_anomaly = false) := by
  have hne : (backends.filterMap (·.2)).isEmpty = false := by
    rcases hL : backends.filterMap (·.2) with _ | ⟨a, l⟩
    · exact absurd hL h
    · rw [hL]
      rfl
  refine ⟨_, ensembleDetection_result_some backends d now hne, ?_, ?_⟩
  · exact decide_eq_true_iff
  · intro htie
    have hq : (((backends.filterMap (·.2)).countP (·.is_anomaly) : ℚ)) =
        ((backends.filterMap (·.2)).length : ℚ) / 2 := by
      rw [eq_div_iff (by norm_num : (2:ℚ) ≠ 0)]
      exact_mod_cast (mul_comm 2 _ ▸ htie)
    simp [hq]

/-- Witness for C1: four backends succeed and exactly two vote anomalous;
the tie resolves to not anomalous. -/
theorem ensemble_strict_majority_vote_witness :
    sampleBackends.filterMap (·.2) ≠ [] ∧
      ∃ r, (ensembleDetection sampleBackends [] 0).result = some r ∧
        r.is_anomaly = false := by
  refine ⟨by decide, ?_⟩
  obtain ⟨r, hr, _, htie⟩ :=
    ensemble_strict_majority_vote sampleBackends [] 0 (by decide)
  exact ⟨r, hr, htie (by decide)⟩

/-- C2: a backend whose scoring raises is logged and excluded from the
vote (inserting a failed backend anywhere leaves the ensemble result
unchanged while its name is logged), and the no-backend-available error
occurs exactly when every registered backend failed. -/
theorem ensemble_failed_backend_isolation
    (pre post : List (String × Option AnomalyResult)) (name : String)
    (backends : List (String × Option AnomalyResult))
    (d : List (String × ℚ)) (now : ℚ) :
    (ensembleDetection (pre ++ (name, none) :: post) d now).result =
        (ensembleDetection (pre ++ post) d now).result ∧
    name ∈ (ensembleDetection (pre ++ (name, none) :: post) d now).warnings ∧
    ((ensembleDetection backends d now).result = none ↔
      ∀ p ∈ backends, p.2 = none) := by
  refine ⟨?_, ?_, ensembleDetection_result_none_iff backends d now⟩
  · have hfm : (pre ++ (name, none) :: post).filterMap
        (Prod.snd (α := String) (β := Option AnomalyResult)) =
        (pre ++ post).filterMap Prod.snd := by
      simp [List.filterMap_append]
    unfold ensembleDetection
    dsimp only
    rw [show ((pre ++ (name, none) :: post).filterMap fun p => p.2) =
        ((pre ++ post).filterMap fun p => p.2) from hfm]
    split <;> rfl
  · rw [ensembleDetection_warnings_eq]
    refine List.mem_map.mpr ⟨(name, none), ?_, rfl⟩
    refine List.mem_filter.mpr ⟨by simp, rfl⟩

/-- Agreement of two `AnomalyResult`s on every field except `timestamp`
(which `_ensemble_detection` stamps with `datetime.now()`). -/
def agreeExceptTimestamp (r₁ r₂ : AnomalyResult) : Prop :=
  r₁.is_anomaly = r₂.is_anomaly ∧ r₁.confidence = r₂.confidence ∧
    r₁.score = r₂.score ∧ r₁.features = r₂.features ∧
    r₁.model_used = r₂.model_used ∧ r₁.threshold = r₂.threshold

/-- Concrete evaluation of the ensemble on the four sample backends: two
of four verdicts are anomalous, so the vote fails and the means are
averaged over all four. -/
theorem sample_ensemble_eval (t : ℚ) :
    (ensembleDetection sampleBackends [] t).result =
      some ⟨false, 1/2, 0, t, [], "ensemble", 1⟩ := by
  rw [ensembleDetection_result_some sampleBackends [] t rfl]
  simp only [sampleBackends, mkVerdict, List.filterMap, List.countP, List.countP.go,
    List.map, List.sum_cons, List.sum_nil, List.length, Option.some_inj,
    AnomalyResult.mk.injEq]
  norm_num

/-- C7 counterexample: with the backend set and all backend outputs held
fixed, two ensemble evaluations performed at different wall-clock instants
do not return identical results (the `timestamp` field is
`datetime.now()` of each call). -/
theorem ensemble_repeat_not_identical :
    (ensembleDetection sampleBackends [] 0).result ≠
      (ensembleDetection sampleBackends [] 1).result := by
  rw [sample_ensemble_eval, sample_ensemble_eval]
  simp only [ne_eq, Option.some_inj, AnomalyResult.mk.injEq]
  norm_num

/-- C7 as amended: with a fixed backend set and fixed backend outputs, two
ensemble evaluations agree on every observable field except the
wall-clock `timestamp`; evaluation is a pure function of the backend
outcomes, the data point and the clock, mutating no state. -/
theorem ensemble_deterministic_except_timestamp
    (backends : List (String × Option AnomalyResult))
    (d : List (String × ℚ)) (t₁ t₂ : ℚ) :
    ((ensembleDetection backends d t₁).result.isSome =
        (ensembleDetection backends d t₂).result.isSome) ∧
    ((ensembleDetection backends d t₁).warnings =
        (ensembleDetection backends d t₂).warnings) ∧
    ∀ r₁ r₂, (ensembleDetection backends d t₁).result = some r₁ →
      (ensembleDetection backends d t₂).result = some r₂ →
      agreeExceptTimestamp r₁ r₂ := by
  rcases hE : (backends.filterMap (·.2)).isEmpty with _ | _
  · have h₁ := ensembleDetection_result_some backends d t₁ hE
    have h₂ := ensembleDetection_result_some backends d t₂ hE
    refine ⟨?_, ?_, ?_⟩
    · rw [h₁, h₂]
      rfl
    · rw [ensembleDetection_warnings_eq, ensembleDetection_warnings_eq]
    · intro r₁ r₂ hr₁ hr₂
      rw [h₁, Option.some_inj] at hr₁
      rw [h₂, Option.some_inj] at hr₂
      subst hr₁
      subst hr₂
      exact ⟨rfl, rfl, rfl, rfl, rfl, rfl⟩
  · have hall : ∀ p ∈ backends, p.2 = none := by
      intro p hp
      rcases hp2 : p.2 with _ | r
      · rfl
      · rw [List.isEmpty_iff] at hE
        exact absurd (hE ▸ List.mem_filterMap.mpr ⟨p, hp, hp2⟩) (List.not_mem_nil r)
    have h₁ := (ensembleDetection_result_none_iff backends d t₁).mpr hall
    have h₂ := (ensembleDetection_result_none_iff backends d t₂).mpr hall
    refine ⟨by rw [h₁, h₂], ?_, ?_⟩
    · rw [ensembleDetection_warnings_eq, ensembleDetection_warnings_eq]
    · intro r₁ r₂ hr₁ hr₂
      rw [h₁] at hr₁
      exact absurd hr₁ (by simp)

/-- Witness for C7's amended theorem: the four sample backends evaluated
at instants 0 and 1 give results agreeing everywhere but the timestamp. -/
theorem ensemble_deterministic_except_timestamp_witness :
    (ensembleDetection sampleBackends [] 0).result =
        some ⟨false, 1/2, 0, 0, [], "ensemble", 1⟩ ∧
      (ensembleDetection sampleBackends [] 1).result =
        some ⟨false, 1/2, 0, 1, [], "ensemble", 1⟩ ∧
      agreeExceptTimestamp ⟨false, 1/2, 0, 0, [], "ensemble", 1⟩
        ⟨false, 1/2, 0, 1, [], "ensemble", 1⟩ := by
  refine ⟨sample_ensemble_eval 0, sample_ensemble_eval 1, ?_⟩
  exact (ensemble_deterministic_except_timestamp sampleBackends [] 0 1).2.2 _ _
    (sample_ensemble_eval 0) (sample_ensemble_eval 1)

/-! The batch aggregator's flush triggers (C3) -/

/-- The configuration of the spec's timeout scenario: batch size 3 and the
default 5-unit batch timeout. -/
def timeoutConfig : StreamConfig := { sampleConfig with batch_size := 3 }

/-- C3 counterexample: with batch size 100 and timeout 5, the worker loop
starts at instant 0, stays idle, and the first message of a fresh buffer
arrives at instant 10.  The loop flushes a one-element batch immediately,
although the buffer has not reached `batch_size` (1 < 100) and no time at
all (10 - 10 = 0 < 5) has elapsed since the first buffered item was added:
the timer the code compares against runs from the last flush (here the
loop start at 0), not from the first buffered item. -/
theorem batch_flush_timer_counterexample :
    (processStep sampleConfig ⟨[], 0⟩ (LoopEvent.arrival (mkMsg "e1") 10)).2 =
        some [mkMsg "e1"] ∧
      1 < sampleConfig.batch_size ∧ (10 : ℚ) - 10 < sampleConfig.batch_timeout := by
  refine ⟨?_, by norm_num [sampleConfig], by norm_num [sampleConfig]⟩
  simp only [processStep]
  rw [if_pos (by norm_num [sampleConfig])]
  rfl

/-- C3 as amended: a batch is flushed exactly when its size reaches
`batch_size` on arrival or when `batch_timeout` has elapsed since the last
flush (or since the worker loop started) — measured from
`last_batch_time`, not from the moment the first item of the current
buffer was added; the flushed batch is the whole buffer, and the buffer
never exceeds `batch_size`. -/
theorem batch_flush_size_or_timeout (cfg : StreamConfig) (s : LoopState) :
    (∀ m t, ((processStep cfg s (LoopEvent.arrival m t)).2 ≠ none ↔
        s.batch.length + 1 ≥ cfg.batch_size ∨
          t - s.last_batch_time ≥ cfg.batch_timeout)) ∧
    (∀ t, ((processStep cfg s (LoopEvent.queueTimeout t)).2 ≠ none ↔
        s.batch ≠ [] ∧ t - s.last_batch_time ≥ cfg.batch_timeout)) ∧
    (∀ m t B, (processStep cfg s (LoopEvent.arrival m t)).2 = some B →
        B = s.batch ++ [m]) ∧
    (∀ t B, (processStep cfg s (LoopEvent.queueTimeout t)).2 = some B →
        B = s.batch) ∧
    (∀ e, 1 ≤ cfg.batch_size → s.batch.length < cfg.batch_size →
        (processStep cfg s e).1.batch.length < cfg.batch_size) := by
  refine ⟨?_, ?_, ?_, ?_, ?_⟩
  · intro m t
    simp only [processStep]
    split
    · rename_i hc
      simpa [List.length_append] using hc
    · rename_i hc
      simpa [List.length_append] using hc
  · intro t
    simp only [processStep]
    split
    · rename_i hc
      simpa [List.isEmpty_iff] using hc
    · rename_i hc
      simpa [List.isEmpty_iff] using hc
  · intro m t B
    simp only [processStep]
    split
    · intro hB
      exact (Option.some_inj.mp hB).symm
    · intro hB
      exact absurd hB (by simp)
  · intro t B
    simp only [processStep]
    split
    · intro hB
      exact (Option.some_inj.mp hB).symm
    · intro hB
      exact absurd hB (by simp)
  · intro e h1 hlt
    rcases e with ⟨m, t⟩ | t <;> simp only [processStep]
    · split
      · simpa using h1
      · rename_i hc
        push_neg at hc
        simpa [List.length_append] using hc.1
    · split
      · simpa using h1
      · exact hlt

/-- Witness for C3's amended theorem: the spec's own timeout scenario —
batch size 3, timeout 5, two messages buffered since the last flush at
instant 0, queue poll times out at instant 6 — flushes the partial batch
of two. -/
theorem batch_flush_size_or_timeout_witness :
    ([mkMsg "a", mkMsg "b"] ≠ ([] : List StreamMessage) ∧
        (6 : ℚ) - 0 ≥ timeoutConfig.batch_timeout) ∧
      (processStep timeoutConfig ⟨[mkMsg "a", mkMsg "b"], 0⟩
        (LoopEvent.queueTimeout 6)).2 ≠ none := by
  refine ⟨⟨by simp, by norm_num [timeoutConfig, sampleConfig]⟩, ?_⟩
  exact ((batch_flush_size_or_timeout timeoutConfig
      ⟨[mkMsg "a", mkMsg "b"], 0⟩).2.1 6).mpr
    ⟨by simp, by norm_num [timeoutConfig, sampleConfig]⟩

/-! Ingestion under a full queue (C4) -/

/-- C4 counterexample: capacity 2, three rapid arrivals, nothing consumed.
The third arrival is dropped with a logged warning and the queue keeps the
first two — but no dropped-message counter exists in
`_consume_messages`: the trace contains zero counter increments, not
one. -/
theorem queue_full_drop_counterexample :
    (consumeRun 2 [mkMsg "e1", mkMsg "e2", mkMsg "e3"]).1 =
        [mkMsg "e1", mkMsg "e2"] ∧
      (consumeRun 2 [mkMsg "e1", mkMsg "e2", mkMsg "e3"]).2 =
        [ConsumeAction.enqueued (mkMsg "e1"), ConsumeAction.enqueued (mkMsg "e2"),
          ConsumeAction.logQueueFullWarning] ∧
      (consumeRun 2 [mkMsg "e1", mkMsg "e2", mkMsg "e3"]).2.count
          ConsumeAction.incrDroppedCounter = 0 ∧
      (0 : ℕ) ≠ 1 := by
  refine ⟨?_, ?_, ?_, by norm_num⟩ <;>
    simp [consumeRun, consumeOne, List.count_cons]

/-- C4 as amended: an arrival at a full queue is dropped without blocking
and a warning is logged, but no dropped-message counter is incremented
(none exists); with capacity 2 and three arrivals none of which is
consumed, the third is dropped and the queue holds the first two. -/
theorem queue_full_drops_newest (cap : ℕ) (q : List StreamMessage)
    (m : StreamMessage) (h : cap ≤ q.length) :
    consumeOne cap q m = (q, [ConsumeAction.logQueueFullWarning]) ∧
      (consumeOne cap q m).2.count ConsumeAction.incrDroppedCounter = 0 ∧
      ∀ e1 e2 e3 : StreamMessage, consumeRun 2 [e1, e2, e3] =
        ([e1, e2], [ConsumeAction.enqueued e1, ConsumeAction.enqueued e2,
          ConsumeAction.logQueueFullWarning]) := by
  have hfull : ¬ q.length < cap := not_lt.mpr h
  refine ⟨by simp [consumeOne, hfull], by simp [consumeOne, hfull], ?_⟩
  intro e1 e2 e3
  simp [consumeRun, consumeOne]

/-- Witness for C4's amended theorem: the full-queue branch at capacity 2
with the two-element queue. -/
theorem queue_full_drops_newest_witness :
    2 ≤ [mkMsg "e1", mkMsg "e2"].length ∧
      consumeOne 2 [mkMsg "e1", mkMsg "e2"] (mkMsg "e3") =
        ([mkMsg "e1", mkMsg "e2"], [ConsumeAction.logQueueFullWarning]) := by
  refine ⟨by simp, ?_⟩
  exact (queue_full_drops_newest 2 [mkMsg "e1", mkMsg "e2"] (mkMsg "e3")
    (by simp)).1

/-! Publishing without a retry loop (C5) -/

/-- A broker whose first send attempt fails transiently and whose later
attempts would succeed. -/
def flakyBroker : ℕ → SendOutcome
  | 0 => SendOutcome.transientFailure
  | _ + 1 => SendOutcome.ok

/-- C5 counterexample: on a transient first-attempt failure,
`_publish_message` makes no further attempt and drops the message, while
the spec's retry contract (with the default `max_retries = 3`) would have
delivered it on the second attempt: the code's behaviour differs from the
claimed retrying publish at this concrete input. -/
theorem publish_no_retry_counterexample :
    publishMessage flakyBroker = ⟨1, false, true⟩ ∧
      specPublish 3 flakyBroker = ⟨2, true, false⟩ ∧
      publishMessage flakyBroker ≠ specPublish 3 flakyBroker := by
  exact ⟨rfl, rfl, by decide⟩

/-- C5 as amended: `_publish_message` makes exactly one send attempt per
message — `max_retries` and `retry_delay` are never consulted — delivering
exactly when that attempt succeeds; a failure is caught and logged and
only that message is dropped (the call returns normally rather than
propagating the error). -/
theorem publish_single_attempt (broker : ℕ → SendOutcome) :
    (publishMessage broker).attempts = 1 ∧
      ((publishMessage broker).delivered = true ↔ broker 0 = SendOutcome.ok) ∧
      ((publishMessage broker).loggedError = true ↔
        broker 0 = SendOutcome.transientFailure) := by
  rcases h : broker 0 with _ | _ <;> simp [publishMessage, h]

/-! Per-record failure isolation inside a batch (C6) -/

/-- A concrete anomalous verdict used to drive batch scenarios. -/
def goodVerdict : AnomalyResult := ⟨true, 9/10, 2, 0, [], "ensemble", 1⟩

/-- A detection function that raises on the message with the given id and
succeeds on every other message. -/
def failOn (badId : String) (m : StreamMessage) : Option AnomalyResult :=
  if m.id = badId then none else some goodVerdict

/-- Any batch containing a message whose evaluation raises makes the whole
`batch_detect` call raise: the per-row loop has no per-record exception
handling. -/
theorem batch_detect_eq_none_of_mem (detect : StreamMessage → Option AnomalyResult)
    (msgs : List StreamMessage) (h : ∃ m ∈ msgs, detect m = none) :
    batch_detect detect msgs = none := by
  induction msgs with
  | nil =>
      obtain ⟨m, hm, _⟩ := h
      exact absurd hm (List.not_mem_nil m)
  | cons a l ih =>
      obtain ⟨m, hm, hdm⟩ := h
      rcases List.mem_cons.mp hm with rfl | hm'
      · simp [batch_detect, hdm]
      · rcases hda : detect a with _ | r
        · simp [batch_detect, hda]
        · simp [batch_detect, hda, ih ⟨m, hm', hdm⟩]

/-- C6 counterexample: in the batch [e1, e2, e3] only e2's evaluation
fails, yet `_process_batch` emits nothing but the batch-level error log —
e1 and e3 are neither evaluated to published results nor published, so
the failure is not isolated to the single failing record. -/
theorem batch_failure_not_isolated :
    failOn "e2" (mkMsg "e1") = some goodVerdict ∧
      failOn "e2" (mkMsg "e2") = none ∧
      processBatch sampleConfig (failOn "e2")
          [mkMsg "e1", mkMsg "e2", mkMsg "e3"] = [PubAction.logBatchError] ∧
      PubAction.publishOutput sampleConfig.output_topic
          ⟨"e1", 0, "src", true, 9/10, 2, "ensemble", [], []⟩ ∉
        processBatch sampleConfig (failOn "e2")
          [mkMsg "e1", mkMsg "e2", mkMsg "e3"] := by
  have h1 : failOn "e2" (mkMsg "e1") = some goodVerdict := by
    simp [failOn, mkMsg]
  have h2 : failOn "e2" (mkMsg "e2") = none := by
    simp [failOn, mkMsg]
  have h3 : processBatch sampleConfig (failOn "e2")
      [mkMsg "e1", mkMsg "e2", mkMsg "e3"] = [PubAction.logBatchError] := by
    simp [processBatch, batch_detect, h1, h2]
  refine ⟨h1, h2, h3, ?_⟩
  rw [h3]
  simp

/-- C6 as amended: a failure while evaluating any one event of a batch
aborts the whole batch — `_process_batch` publishes no result for any
event of that batch and logs one batch-level error; the failure is
contained at batch granularity (the call returns normally, so subsequent
batches are unaffected), not at single-record granularity. -/
theorem batch_failure_drops_whole_batch (cfg : StreamConfig)
    (detect : StreamMessage → Option AnomalyResult) (msgs : List StreamMessage)
    (h : ∃ m ∈ msgs, detect m = none) :
    processBatch cfg detect msgs = [PubAction.logBatchError] ∧
      ∀ t out, PubAction.publishOutput t out ∉ processBatch cfg detect msgs := by
  have hne : msgs.isEmpty = false := by
    obtain ⟨m, hm, _⟩ := h
    rcases msgs with _ | _
    · exact absurd hm (List.not_mem_nil m)
    · rfl
  have hbd := batch_detect_eq_none_of_mem detect msgs h
  have hpb : processBatch cfg detect msgs = [PubAction.logBatchError] := by
    simp [processBatch, hne, hbd]
  refine ⟨hpb, ?_⟩
  intro t out
  rw [hpb]
  simp

/-- Witness for C6's amended theorem: the batch [e1, e2, e3] with e2
failing is dropped whole. -/
theorem batch_failure_drops_whole_batch_witness :
    (∃ m ∈ [mkMsg "e1", mkMsg "e2", mkMsg "e3"], failOn "e2" m = none) ∧
      processBatch sampleConfig (failOn "e2")
        [mkMsg "e1", mkMsg "e2", mkMsg "e3"] = [PubAction.logBatchError] := by
  have hex : ∃ m ∈ [mkMsg "e1", mkMsg "e2", mkMsg "e3"], failOn "e2" m = none :=
    ⟨mkMsg "e2", by simp, by simp [failOn, mkMsg]⟩
  exact ⟨hex, (batch_failure_drops_whole_batch sampleConfig (failOn "e2")
    [mkMsg "e1", mkMsg "e2", mkMsg "e3"] hex).1⟩

/-! Unconditional result publishing and alert fan-out (C8) -/

/-- C8: every result is published to the output topic; exactly the
anomalous results additionally yield an alert publish to the alert topic
and a Redis store, with severity `"high"` iff confidence exceeds 0.8; in
particular a confidence of 0.85 gives `"high"` and 0.6 gives
`"medium"`. -/
theorem result_publish_and_alert (cfg : StreamConfig) (msg : StreamMessage)
    (result : AnomalyResult) :
    (∃ out : OutputMessage, PubAction.publishOutput cfg.output_topic out ∈
        handleAnomalyResult cfg msg result ∧ out.id = msg.id ∧
        out.is_anomaly = result.is_anomaly ∧ out.confidence = result.confidence) ∧
    ((∃ t a, PubAction.publishAlert t a ∈ handleAnomalyResult cfg msg result) ↔
      result.is_anomaly = true) ∧
    ((∃ a, PubAction.storeAlert a ∈ handleAnomalyResult cfg msg result) ↔
      result.is_anomaly = true) ∧
    (∀ t a, PubAction.publishAlert t a ∈ handleAnomalyResult cfg msg result →
      t = cfg.alert_topic ∧
        a.severity = (if result.confidence > 8/10 then "high" else "medium")) ∧
    (∀ a, PubAction.storeAlert a ∈ handleAnomalyResult cfg msg result →
      a.severity = (if result.confidence > 8/10 then "high" else "medium")) ∧
    (∀ a, PubAction.storeAlert a ∈ handleAnomalyResult cfg msg
        ⟨true, 85/100, result.score, result.timestamp, result.features,
          result.model_used, result.threshold⟩ → a.severity = "high") ∧
    (∀ a, PubAction.storeAlert a ∈ handleAnomalyResult cfg msg
        ⟨true, 6/10, result.score, result.timestamp, result.features,
          result.model_used, result.threshold⟩ → a.severity = "medium") := by
  refine ⟨⟨⟨msg.id, result.timestamp, msg.source, result.is_anomaly,
    result.confidence, result.score, result.model_used, result.features,
    msg.metadata⟩, by simp [handleAnomalyResult], rfl, rfl, rfl⟩,
    ?_, ?_, ?_, ?_, ?_, ?_⟩
  · rcases hA : result.is_anomaly with _ | _ <;>
      simp [handleAnomalyResult, hA]
  · rcases hA : result.is_anomaly with _ | _ <;>
      simp [handleAnomalyResult, hA]
  · intro t a
    rcases hA : result.is_anomaly with _ | _ <;>
      simp [handleAnomalyResult, hA]
    intro ht ha
    exact ⟨ht, by rw [ha]⟩
  · intro a
    rcases hA : result.is_anomaly with _ | _ <;>
      simp [handleAnomalyResult, hA]
    intro ha
    rw [ha]
  · intro a
    simp [handleAnomalyResult]
    intro ha
    rw [ha]
    norm_num
  · intro a
    simp [handleAnomalyResult]
    intro ha
    rw [ha]
    norm_num

/-- A concrete anomalous result with confidence 0.85. -/
def anomalousResult : AnomalyResult := ⟨true, 85/100, 2, 0, [], "ensemble", 1⟩

/-- Witness for C8: the anomalous sample result is fanned out to the alert
topic. -/
theorem result_publish_and_alert_witness :
    anomalousResult.is_anomaly = true ∧
      ∃ t a, PubAction.publishAlert t a ∈
        handleAnomalyResult sampleConfig (mkMsg "e") anomalousResult := by
  exact ⟨rfl, ((result_publish_and_alert sampleConfig (mkMsg "e")
    anomalousResult).2.1).mpr rfl⟩

/-! Metrics (C9, C10) -/

/-- Along any run of `_update_metrics` from the zeroed store,
`anomalies_detected` never exceeds `total_processed`: the former is
incremented only when the latter is. -/
theorem metrics_anomalies_le_total (rs : List AnomalyResult) (m : Metrics)
    (h : m.anomalies_detected ≤ m.total_processed) :
    (rs.foldl update_metrics m).anomalies_detected ≤
      (rs.foldl update_metrics m).total_processed := by
  induction rs generalizing m with
  | nil => exact h
  | cons r l ih =>
      refine ih (update_metrics m r) ?_
      rcases hA : r.is_anomaly with _ | _ <;>
        simp [update_metrics, hA] <;> omega

/-- C9: after any sequence of processed results, the `anomaly_rate`
reported by `get_metrics` equals `anomalies_detected / total_processed`
when `total_processed > 0`, equals `0.0` when `total_processed = 0`, and
always lies in `[0, 1]`. -/
theorem metrics_anomaly_rate_correct (rs : List AnomalyResult) :
    ((rs.foldl update_metrics initMetrics).total_processed > 0 →
      anomaly_rate (rs.foldl update_metrics initMetrics) =
        ((rs.foldl update_metrics initMetrics).anomalies_detected : ℚ) /
          ((rs.foldl update_metrics initMetrics).total_processed : ℚ)) ∧
    ((rs.foldl update_metrics initMetrics).total_processed = 0 →
      anomaly_rate (rs.foldl update_metrics initMetrics) = 0) ∧
    0 ≤ anomaly_rate (rs.foldl update_metrics initMetrics) ∧
    anomaly_rate (rs.foldl update_metrics initMetrics) ≤ 1 := by
  have hinv : (rs.foldl update_metrics initMetrics).anomalies_detected ≤
      (rs.foldl update_metrics initMetrics).total_processed :=
    metrics_anomalies_le_total rs initMetrics (le_refl 0)
  refine ⟨?_, ?_, ?_, ?_⟩
  · intro h
    simp only [anomaly_rate]
    rw [if_pos h]
  · intro h
    simp only [anomaly_rate]
    rw [if_neg (by omega)]
  · simp only [anomaly_rate]
    split
    · positivity
    · exact le_refl 0
  · simp only [anomaly_rate]
    split
    · rename_i h
      rw [div_le_one (by exact_mod_cast h)]
      exact_mod_cast hinv
    · norm_num

/-- Witness for C9: after processing the single anomalous sample result,
`total_processed = 1 > 0` and the reported rate is the quotient. -/
theorem metrics_anomaly_rate_correct_witness :
    ([anomalousResult].foldl update_metrics initMetrics).total_processed > 0 ∧
      anomaly_rate ([anomalousResult].foldl update_metrics initMetrics) =
        (([anomalousResult].foldl update_metrics initMetrics).anomalies_detected : ℚ) /
          (([anomalousResult].foldl update_metrics initMetrics).total_processed : ℚ) := by
  have h : ([anomalousResult].foldl update_metrics initMetrics).total_processed > 0 := by
    simp [update_metrics, initMetrics]
  exact ⟨h, (metrics_anomaly_rate_correct [anomalousResult]).1 h⟩

/-- C10: the histogram bucket incremented per processed result is
`int(confidence * 10)` with no upper clamp; a confidence of exactly 1.0 —
reachable, since the per-backend clamp `min(confidence, 1.0)` yields
exactly 1.0 whenever the raw confidence is at least 1 — increments bucket
10, outside the ten deciles 0..9 that hold every confidence in
`[0, 1)`. -/
theorem confidence_bucket_unclamped (m : Metrics) (r : AnomalyResult) (raw : ℚ)
    (h1 : 1 ≤ raw) (h2 : r.confidence = singleModelConfidence raw) :
    r.confidence = 1 ∧
      pyInt (r.confidence * 10) = 10 ∧
      (update_metrics m r).confidence_histogram 10 =
        m.confidence_histogram 10 + 1 ∧
      ∀ c : ℚ, 0 ≤ c → c < 1 → 0 ≤ pyInt (c * 10) ∧ pyInt (c * 10) ≤ 9 := by
  have hc : r.confidence = 1 := by
    rw [h2, singleModelConfidence, min_eq_right h1]
  have hp : pyInt (r.confidence * 10) = 10 := by
    rw [hc]
    norm_num [pyInt]
  refine ⟨hc, hp, by simp [update_metrics, hp], ?_⟩
  intro c h0 hlt
  have h10 : (0 : ℚ) ≤ c * 10 := by positivity
  simp only [pyInt, if_pos h10]
  constructor
  · exact Int.floor_nonneg.mpr h10
  · have hfl : ⌊c * 10⌋ < 10 := by
      rw [Int.floor_lt]
      push_cast
      linarith
    omega

/-- A result carrying the clamped full confidence 1.0. -/
def fullConfidenceResult : AnomalyResult := ⟨true, 1, 2, 0, [], "isolation_forest", 1⟩

/-- Witness for C10: a raw confidence of 2 is clamped to 1.0 and lands in
histogram bucket 10 of the zeroed store. -/
theorem confidence_bucket_unclamped_witness :
    (1 : ℚ) ≤ 2 ∧ fullConfidenceResult.confidence = singleModelConfidence 2 ∧
      (update_metrics initMetrics fullConfidenceResult).confidence_histogram 10 =
        initMetrics.confidence_histogram 10 + 1 := by
  have h2 : fullConfidenceResult.confidence = singleModelConfidence 2 := by
    rw [singleModelConfidence, min_eq_right (by norm_num : (1:ℚ) ≤ 2)]
    rfl
  exact ⟨by norm_num, h2, (confidence_bucket_unclamped initMetrics
    fullConfidenceResult 2 (by norm_num) h2).2.2.1⟩

end AnomalySystem
